import Mathlib

/-!
Verification of the structured metadata extraction layer of the
`personal-carnage` package-management front end, against its specification.

The development shallowly embeds the two parsing modules
(`carnage/core/portage/glsas.py` and `carnage/core/eix/search.py`):

* Python string primitives (`str.strip`, `str.split`, `str.splitlines`)
  are modelled over `List Char` / `String`;
* the lxml element tree is modelled as an inductive `Element` with
  tag, attributes, text, children and tail, together with a pre-order
  `iter` traversal matching `lxml.etree._Element.iter()`;
* each extraction function of the source is translated definitionally.

Notes on model fidelity:

* Python `str.splitlines` also treats `\x0b`, `\x0c`, `\x1c`–`\x1e`,
  `\x85`, U+2028 and U+2029 as line boundaries; all of these are
  modelled (`pyIsLineBreak`).
* Python `str.strip()` strips Unicode whitespace; the model covers the
  ASCII whitespace characters, NBSP and the Unicode line/paragraph
  separators, which is the set relevant to the documents at hand.
-/

namespace Carnage

/-- Whitespace characters recognised by the model of Python `str.strip()` /
`str.split()` (Python strips all Unicode whitespace; exotic Unicode space
characters beyond the listed ones are not modelled). -/
def pyIsSpace (c : Char) : Bool :=
  c = ' ' || c = '\t' || c = '\n' || c = '\r' || c = '\x0b' || c = '\x0c' ||
  c = '\x1c' || c = '\x1d' || c = '\x1e' || c = '\x85' || c = '\xa0' ||
  c = '\u2028' || c = '\u2029'

/-- Model of Python `str.lstrip()` (no argument form). -/
def pyLstripL (l : List Char) : List Char := l.dropWhile pyIsSpace

/-- Model of Python `str.strip()` (no argument form). -/
def pyStripL (l : List Char) : List Char :=
  ((l.dropWhile pyIsSpace).reverse.dropWhile pyIsSpace).reverse

/-- Model of Python `str.strip()` on `String`. -/
def pyStrip (s : String) : String := ⟨pyStripL s.toList⟩

/-- Model of Python `str.split()` (no argument form): split on runs of
whitespace, dropping empty pieces. -/
def pySplit (s : String) : List String :=
  (s.toList.splitOnP pyIsSpace).filter (· ≠ []) |>.map (⟨·⟩)

/-- Line-boundary characters of Python `str.splitlines()`. -/
def pyIsLineBreak (c : Char) : Bool :=
  c = '\n' || c = '\r' || c = '\x0b' || c = '\x0c' ||
  c = '\x1c' || c = '\x1d' || c = '\x1e' || c = '\x85' ||
  c = '\u2028' || c = '\u2029'

/-- Model of Python `str.splitlines()` over character lists: `"\r\n"` counts
as a single boundary, a trailing boundary produces no final empty line, and
the empty string yields no lines. -/
def pySplitlinesL : List Char → List (List Char)
  | [] => []
  | [c] => if pyIsLineBreak c then [[]] else [[c]]
  | c :: d :: rest =>
    if c = '\r' ∧ d = '\n' then
      [] :: pySplitlinesL rest
    else if pyIsLineBreak c then
      [] :: pySplitlinesL (d :: rest)
    else
      match pySplitlinesL (d :: rest) with
      | [] => [[c]]
      | l :: ls => (c :: l) :: ls

/-- Model of Python `str.splitlines()` on `String`. -/
def pySplitlines (s : String) : List String :=
  (pySplitlinesL s.toList).map (⟨·⟩)

/-- Python truthiness of an optional string (lxml `.text` / `.get` results):
`None` and `""` are falsy. -/
def pyTruthy : Option String → Bool
  | some s => s ≠ ""
  | none => false

/-- Model of Python `a or b` for a string `a` with default `b`
(used for `s("synopsis") or ""` and similar). -/
def pyOrStr (a : Option String) (b : String) : String :=
  match a with
  | some s => if s ≠ "" then s else b
  | none => b

/-! ## The lxml element-tree model

An element has a tag, attributes, optional text (the text node directly
after the start tag), children, and an optional tail (the text node
directly after the end tag), exactly lxml's data model. -/

inductive Element where
  | mk (tag : String) (attrs : List (String × String)) (text : Option String)
       (children : List Element) (tail : Option String)

def Element.tag : Element → String
  | .mk t _ _ _ _ => t

def Element.attrs : Element → List (String × String)
  | .mk _ a _ _ _ => a

def Element.text : Element → Option String
  | .mk _ _ tx _ _ => tx

def Element.children : Element → List Element
  | .mk _ _ _ cs _ => cs

def Element.tail : Element → Option String
  | .mk _ _ _ _ tl => tl

/-- lxml `elem.get(key)`: the attribute value, or `None` when absent. -/
def Element.attr (e : Element) (key : String) : Option String :=
  (e.attrs.find? (fun p => p.1 = key)).map (·.2)

/-- lxml `elem.get(key, default)`. -/
def Element.attrD (e : Element) (key dflt : String) : String :=
  (e.attr key).getD dflt

/-- The child elements with the given tag, in document order
(the relative XPath `tag` step). -/
def Element.childrenNamed (e : Element) (t : String) : List Element :=
  e.children.filter (fun c => c.tag = t)

mutual

/-- lxml `elem.iter()`: the element itself followed by all descendants in
document (depth-first pre-) order. -/
def Element.iter : Element → List Element
  | .mk t a tx cs tl => .mk t a tx cs tl :: Element.iterList cs

def Element.iterList : List Element → List Element
  | [] => []
  | c :: cs => c.iter ++ Element.iterList cs

end

mutual

/-- The XPath string value of an element: the concatenation of all text
nodes in its subtree (its own text, then recursively each child's string
value followed by that child's tail). -/
def Element.stringValue : Element → String
  | .mk _ _ tx cs _ => (tx.getD "") ++ Element.stringValueList cs

def Element.stringValueList : List Element → String
  | [] => ""
  | c :: cs => c.stringValue ++ (c.tail.getD "") ++ Element.stringValueList cs

end

/-- The direct text-node children of an element, in document order: its own
text (when present) followed by the tails of its children (the XPath
`text()` step). -/
def Element.textNodes (e : Element) : List String :=
  (match e.text with | some t => [t] | none => []) ++ e.children.filterMap (·.tail)

/-! ## `carnage/core/portage/glsas.py`: data models -/

/-- `Resolution` of `glsas.py`: one alternating segment of an advisory's
remediation instructions. -/
structure Resolution where
  text : String
  code : Option String := none
deriving DecidableEq

/-- One `unaffected`/`vulnerable` condition dict of
`_parse_affected_packages`. -/
structure RangeCondition where
  range : String
  slot : String
  value : String
deriving DecidableEq

/-- `AffectedPackage` of `glsas.py`. -/
structure AffectedPackage where
  name : String
  auto : String
  arch : String
  unaffected_conditions : List RangeCondition
  vulnerable_conditions : List RangeCondition
deriving DecidableEq

/-- `GLSA` of `glsas.py` (the `SecurityAdvisory` record of the spec). -/
structure GLSA where
  id : String
  title : Option String
  synopsis : String
  product : Option String
  announced : Option String
  revised : Option String
  revision_count : String
  bugs : List String
  access : Option String
  background : Option String
  description : String
  impact : String
  impact_type : String
  workaround : Option String
  resolutions : List Resolution
  affected_packages : List AffectedPackage
  references : List String
deriving DecidableEq

/-! ## `_clean_code_indentation` (the Indentation Normalizer) -/

/-- Loop body of the `for line in lines` minimum-indent scan of
`_clean_code_indentation`: a non-blank line contributes
`len(line) - len(line.lstrip())`. -/
def minIndentStep (m : Option Nat) (line : String) : Option Nat :=
  if pyStrip line ≠ "" then
    let indent := line.toList.length - (pyLstripL line.toList).length
    match m with
    | none => some indent
    | some m0 => some (min m0 indent)
  else m

/-- The `min_indent` value computed by `_clean_code_indentation`
(`None` when there is no non-blank line). -/
def minIndentOpt (lines : List String) : Option Nat :=
  lines.foldl minIndentStep none

/-- `line[min_indent:] if line.strip() else line`. -/
def dedentLine (m : Nat) (line : String) : String :=
  if pyStrip line ≠ "" then ⟨line.toList.drop m⟩ else line

/-- `_clean_code_indentation` of `glsas.py`: strip the common leading
whitespace width from every non-blank line; on a falsy `min_indent`
(`None` or `0`) return the input unchanged. -/
def cleanCodeIndentation (code : String) : String :=
  let lines := pySplitlines code
  match minIndentOpt lines with
  | some m =>
    if m ≠ 0 then String.intercalate "\n" (lines.map (dedentLine m)) else code
  | none => code

/-! ## `_parse_resolutions` (the Text Segmenter) -/

/-- The mutable state of `_parse_resolutions`: the two accumulators and the
output list. -/
structure ResState where
  textBuf : String
  codeBuf : String
  acc : List Resolution
deriving DecidableEq

/-- Emit a `Resolution` from the accumulators (the body of the two
`resolutions.append(...)` sites): text stripped, code put through
`_clean_code_indentation` when non-empty, else `None`. -/
def emitResolution (st : ResState) : List Resolution :=
  st.acc ++ [⟨pyStrip st.textBuf,
    if st.codeBuf ≠ "" then some (cleanCodeIndentation st.codeBuf) else none⟩]

/-- One iteration of the `for elem in elems[0].iter()` loop of
`_parse_resolutions`. -/
def resolutionStep (st : ResState) (e : Element) : ResState :=
  let st1 :=
    if e.tag = "p" then
      let st' :=
        if st.textBuf ≠ "" ∨ st.codeBuf ≠ "" then
          { textBuf := "", codeBuf := "", acc := emitResolution st }
        else st
      if pyTruthy e.text then { st' with textBuf := pyStrip (e.text.getD "") }
      else st'
    else if e.tag = "code" ∧ pyTruthy e.text then
      { st with codeBuf := st.codeBuf ++ e.text.getD "" }
    else st
  if pyTruthy e.tail ∧ pyStrip (e.tail.getD "") ≠ "" then
    { st1 with textBuf := st1.textBuf ++ " " ++ pyStrip (e.tail.getD "") }
  else st1

/-- `_parse_resolutions` of `glsas.py`: walk the first `resolution` child's
subtree in document order, flushing on paragraph boundaries, with a final
flush after the walk. -/
def parseResolutions (root : Element) : List Resolution :=
  match root.childrenNamed "resolution" with
  | [] => []
  | r :: _ =>
    let st := (r.iter).foldl resolutionStep ⟨"", "", []⟩
    if st.textBuf ≠ "" ∨ st.codeBuf ≠ "" then emitResolution st else st.acc

/-! ## `_parse_affected_packages` and `_parse_glsa_xml` -/

/-- One condition dict: `range`/`slot` attributes with empty-string
defaults, `value` the stripped text (`(elem.text or "").strip()`). -/
def parseCondition (e : Element) : RangeCondition :=
  ⟨e.attrD "range" "", e.attrD "slot" "", pyStrip (e.text.getD "")⟩

/-- `_parse_affected_packages` of `glsas.py`. -/
def parseAffectedPackages (root : Element) : List AffectedPackage :=
  ((root.childrenNamed "affected").map (fun aff =>
    (aff.childrenNamed "package").map (fun pkg =>
      { name := pkg.attrD "name" ""
        auto := pkg.attrD "auto" "yes"
        arch := pkg.attrD "arch" "*"
        unaffected_conditions := (pkg.childrenNamed "unaffected").map parseCondition
        vulnerable_conditions := (pkg.childrenNamed "vulnerable").map parseCondition
        : AffectedPackage }))).flatten

/-- XPath `string(tag)` relative to `root`: the string value of the first
`tag` child, `""` when the node-set is empty. -/
def xpathString1 (root : Element) (t : String) : String :=
  match (root.childrenNamed t).head? with
  | some e => e.stringValue
  | none => ""

/-- XPath `string(t1/t2)` relative to `root`: the string value of the first
element of the `t1/t2` node-set in document order, `""` when empty. -/
def xpathString2 (root : Element) (t1 t2 : String) : String :=
  match ((root.childrenNamed t1).map (fun e => e.childrenNamed t2)).flatten.head? with
  | some e => e.stringValue
  | none => ""

/-- The local helper `s` of `_parse_glsa_xml`:
`val.strip() if val else None` applied to an XPath string value. -/
def sVal (v : String) : Option String :=
  if v ≠ "" then some (pyStrip v) else none

/-- `_parse_glsa_xml` of `glsas.py`. The `Option Element` argument is the
outcome of tree construction: `none` models a document with no root
element, on which the Python body raises `AttributeError` at the first
`root.xpath` call and the surrounding `except` returns `None`; the
function never propagates an exception. -/
def parseGlsaXml (glsaId : String) (root? : Option Element) : Option GLSA :=
  match root? with
  | none => none
  | some root =>
    some {
      id := glsaId
      title := sVal (xpathString1 root "title")
      synopsis := pyOrStr (sVal (xpathString1 root "synopsis")) ""
      product := sVal (xpathString1 root "product")
      announced := sVal (xpathString1 root "announced")
      revised := sVal (xpathString1 root "revised")
      revision_count :=
        match (root.childrenNamed "revised").head? with
        | some e => e.attrD "count" "01"
        | none => "01"
      bugs := (((root.childrenNamed "bug").map Element.textNodes).flatten).filter (· ≠ "")
      access := sVal (xpathString1 root "access")
      background := sVal (xpathString2 root "background" "p")
      description := pyOrStr (sVal (xpathString2 root "description" "p")) ""
      impact := pyOrStr (sVal (xpathString2 root "impact" "p")) ""
      impact_type :=
        match (root.childrenNamed "impact").head? with
        | some e => e.attrD "type" "normal"
        | none => "normal"
      workaround := sVal (xpathString2 root "workaround" "p")
      resolutions := parseResolutions root
      affected_packages := parseAffectedPackages root
      references :=
        (((root.childrenNamed "references").map
            (fun r => r.childrenNamed "uri")).flatten).filterMap (fun u =>
          let v := if pyTruthy (u.attr "link") then u.attr "link" else u.text
          if pyTruthy v then v else none)
    }

/-! ## `carnage/core/eix/search.py` -/

/-- `PackageVersion` of `search.py`. -/
structure PackageVersion where
  id : String
  eapi : Option String
  repository : Option String
  virtual : Bool
  installed : Bool
  src_uri : Option String
  iuse : List String
  iuse_default : List String
  required_use : Option String
  depend : Option String
  rdepend : Option String
  bdepend : Option String
  pdepend : Option String
  idepend : Option String
  masks : List String
  unmasks : List String
  properties : List String
  restricts : List String
  use_enabled : List String
  use_disabled : List String
deriving DecidableEq

/-- `Package` of `search.py`. -/
structure Package where
  category : String
  name : String
  description : Option String
  homepage : Option String
  licenses : List String
  versions : List PackageVersion
deriving DecidableEq

/-- One iteration of the `for iuse_elem in version_elem.xpath("iuse")`
loop of `_parse_version`: every whitespace-split flag of the element is
appended to `iuse`, and also to `iuse_default` when this element carries
`default="1"`. -/
def iuseStep (st : List String × List String) (e : Element) : List String × List String :=
  let flags := if pyTruthy e.text then pySplit (e.text.getD "") else []
  flags.foldl
    (fun st flag =>
      (st.1 ++ [flag],
       if e.attr "default" = some "1" then st.2 ++ [flag] else st.2))
    st

/-- The child `use` elements with the given `enabled` attribute value
(XPath `use[@enabled="v"]`). -/
def useChildren (v : Element) (enabledVal : String) : List Element :=
  v.children.filter (fun c => c.tag = "use" ∧ c.attr "enabled" = some enabledVal)

/-- `elems[0].text.split() if elems and elems[0].text else []`. -/
def firstElemFlags (elems : List Element) : List String :=
  match elems.head? with
  | some e => if pyTruthy e.text then pySplit (e.text.getD "") else []
  | none => []

/-- `elem.text if elem is not None else None` over the head of an XPath
result (used for the dependency/required-use fields). -/
def firstChildText (v : Element) (t : String) : Option String :=
  ((v.childrenNamed t).head?).bind (·.text)

/-- `_parse_version` of `search.py`. -/
def parseVersion (v : Element) : PackageVersion :=
  let iusePair := (v.childrenNamed "iuse").foldl iuseStep ([], [])
  { id := v.attrD "id" ""
    eapi := v.attr "EAPI"
    repository := v.attr "repository"
    virtual := v.attr "virtual" = some "1"
    installed := v.attr "installed" = some "1"
    src_uri := v.attr "srcURI"
    iuse := iusePair.1
    iuse_default := iusePair.2
    required_use := firstChildText v "required_use"
    depend := firstChildText v "depend"
    rdepend := firstChildText v "rdepend"
    bdepend := firstChildText v "bdepend"
    pdepend := firstChildText v "pdepend"
    idepend := firstChildText v "idepend"
    masks := (v.childrenNamed "mask").filterMap (·.attr "type")
    unmasks := (v.childrenNamed "unmask").filterMap (·.attr "type")
    properties := (v.childrenNamed "properties").filterMap (·.attr "flag")
    restricts := (v.childrenNamed "restrict").filterMap (·.attr "flag")
    use_enabled := firstElemFlags (useChildren v "1")
    use_disabled := firstElemFlags (useChildren v "0") }

/-- `_parse_package` of `search.py`. -/
def parsePackage (p : Element) (category : String) : Package :=
  { category := category
    name := p.attrD "name" ""
    description := ((p.childrenNamed "description").head?).bind (·.text)
    homepage := ((p.childrenNamed "homepage").head?).bind (·.text)
    licenses :=
      match (p.childrenNamed "licenses").head? with
      | some e => if pyTruthy e.text then pySplit (e.text.getD "") else []
      | none => []
    versions := (p.childrenNamed "version").map parseVersion }

/-- The `//category` node-set of the package-index document: every
`category` element of the tree rooted at `root`, in document order. -/
def documentCategories (root : Element) : List Element :=
  (root.iter).filter (fun e => e.tag = "category")

/-- The extraction loop of `fetch_packages_by_query`: for each `category`
element (XPath `//category`, document order), one `Package` per child
`package` element, carrying the category's `name` attribute (empty-string
default). -/
def extractPackages (root : Element) : List Package :=
  ((documentCategories root).map (fun cat =>
    (cat.childrenNamed "package").map
      (fun p => parsePackage p (cat.attrD "name" "")))).flatten

/-! ## Specification-side definitions

These follow the wording of the spec (and of the amended claims) and are
compared against the source-derived extraction functions above. -/

/-- Replace every `"\r\n"` and every lone `'\r'` by `'\n'` (the spec's
description of line-terminator normalization). -/
def normNewlinesL : List Char → List Char
  | [] => []
  | [c] => if c = '\r' then ['\n'] else [c]
  | c :: d :: rest =>
    if c = '\r' then
      if d = '\n' then '\n' :: normNewlinesL rest
      else '\n' :: normNewlinesL (d :: rest)
    else c :: normNewlinesL (d :: rest)

/-- Drop one trailing `'\n'`, when present. -/
def dropTrailingLf : List Char → List Char
  | [] => []
  | [c] => if c = '\n' then [] else [c]
  | c :: d :: rest => c :: dropTrailingLf (d :: rest)

/-- Split on `'\n'` separators, keeping empty pieces (the inverse of
joining with `"\n"`). -/
def splitOnLf : List Char → List (List Char)
  | [] => [[]]
  | c :: rest =>
    if c = '\n' then [] :: splitOnLf rest
    else
      match splitOnLf rest with
      | [] => [[c]]
      | l :: ls => (c :: l) :: ls

/-- The string uses only the `'\n'` / `'\r'` / `"\r\n"` line terminators:
none of the rarer Python line-boundary characters occurs. -/
def onlyStdBreaks (l : List Char) : Prop :=
  ∀ c ∈ l, pyIsLineBreak c = true → c = '\n' ∨ c = '\r'

instance instDecidableOnlyStdBreaks (l : List Char) : Decidable (onlyStdBreaks l) :=
  List.decidableBAll _ l

/-- All text-node children of the root's `bug` elements, in document order
(the `bug/text()` node-set of the spec's `bugs` rule). -/
def bugTextNodesAll (root : Element) : List String :=
  ((root.childrenNamed "bug").map Element.textNodes).flatten

/-- The `access` rule as the code implements it (amended claim C9): the
stripped full string value of the first `access` element, absent when that
string value is empty (in particular when no `access` element exists). -/
def accessStringValue (root : Element) : Option String :=
  match (root.childrenNamed "access").head? with
  | some e => if e.stringValue = "" then none else some (pyStrip e.stringValue)
  | none => none

/-! ## Concrete input documents used by the claims -/

/-- `<resolution><p>Do X</p><code>cmd1</code><p>Do Y</p><code>cmd2</code></resolution>`
inside an advisory root (claim C1). -/
def c1RootTwoPairs : Element :=
  .mk "glsa" [] none
    [.mk "resolution" [] none
      [.mk "p" [] (some "Do X") [] none,
       .mk "code" [] (some "cmd1") [] none,
       .mk "p" [] (some "Do Y") [] none,
       .mk "code" [] (some "cmd2") [] none] none] none

/-- `<resolution><p>Just text.</p></resolution>` inside an advisory root
(claim C1). -/
def c1RootLoneP : Element :=
  .mk "glsa" [] none
    [.mk "resolution" [] none
      [.mk "p" [] (some "Just text.") [] none] none] none

/-- A `version` element with one `iuse` child carrying `default="1"`
(witness input for claim C2). -/
def c2VersionElem : Element :=
  .mk "version" [] none
    [.mk "iuse" [("default", "1")] (some "a b") [] none,
     .mk "iuse" [] (some "c") [] none] none

/-- A `version` element with two `use enabled="1"` children, texts
`"a b c"` and `"d"` (claim C4's concrete instance). -/
def c4VersionElem : Element :=
  .mk "version" [] none
    [.mk "use" [("enabled", "1")] (some "a b c") [] none,
     .mk "use" [("enabled", "1")] (some "d") [] none] none

/-- A `version` element whose first `use enabled="1"` and first
`use enabled="0"` children both carry the flag `a` (counterexample input
for claim C5). -/
def c5VersionElem : Element :=
  .mk "version" [] none
    [.mk "use" [("enabled", "1")] (some "a") [] none,
     .mk "use" [("enabled", "0")] (some "a") [] none] none

/-- A `version` element whose `use` children carry distinct flags
(witness input for the amended claim C5). -/
def c5OkVersionElem : Element :=
  .mk "version" [] none
    [.mk "use" [("enabled", "1")] (some "a b") [] none,
     .mk "use" [("enabled", "0")] (some "c") [] none] none

/-- A package-index document with two categories holding two and one
`package` children (witness input for claim C6). -/
def c6DocRoot : Element :=
  .mk "eix" [] none
    [.mk "category" [("name", "app-misc")] none
      [.mk "package" [("name", "x")] none [] none,
       .mk "package" [("name", "y")] none [] none] none,
     .mk "category" [] none
      [.mk "package" [("name", "z")] none [] none] none] none

/-- An advisory root whose only `bug` element holds a whitespace-only text
node (counterexample input for claim C7). -/
def c7BugRoot : Element :=
  .mk "glsa" [] none [.mk "bug" [] (some " ") [] none] none

/-- An advisory root whose `access` element holds direct text and no `p`
child (counterexample input for claim C9). -/
def c9AccessRoot : Element :=
  .mk "glsa" [] none [.mk "access" [] (some "remote") [] none] none

/-! ## Helper lemmas -/

/-- A fold preserves any invariant preserved by its step function. -/
theorem foldl_preserves {A B : Type} (P : A → Prop) (f : A → B → A)
    (hf : ∀ s b, P s → P (f s b)) :
    ∀ (l : List B) (init : A), P init → P (l.foldl f init)
  | [], _, h => h
  | b :: bs, init, h => foldl_preserves P f hf bs (f init b) (hf init b h)

/-- One `iuse` element keeps `iuse_default` a sublist of `iuse`. -/
theorem iuseStep_sublist (st : List String × List String) (e : Element)
    (h : List.Sublist st.2 st.1) :
    List.Sublist (iuseStep st e).2 (iuseStep st e).1 := by
  unfold iuseStep
  refine foldl_preserves (fun (s : List String × List String) => List.Sublist s.2 s.1) _ ?_ _ _ h
  intro s flag hs
  dsimp only
  by_cases hd : e.attr "default" = some "1"
  · rw [if_pos hd]
    exact hs.append (List.Sublist.refl _)
  · rw [if_neg hd]
    exact hs.trans (List.sublist_append_left _ _)

/-! ## Claims -/

/-- C1: the Text Segmenter (`_parse_resolutions`), on a resolution subtree
holding in document order `p "Do X"`, `code "cmd1"`, `p "Do Y"`,
`code "cmd2"`, returns exactly the two `Resolution` records
`{text := "Do X", code := "cmd1"}` and `{text := "Do Y", code := "cmd2"}`;
on a subtree holding a lone `p "Just text."` and no code, exactly one
record with text `"Just text."` and code unset. -/
theorem c1_text_segmenter :
    parseResolutions c1RootTwoPairs =
      [⟨"Do X", some "cmd1"⟩, ⟨"Do Y", some "cmd2"⟩] ∧
    parseResolutions c1RootLoneP = [⟨"Just text.", none⟩] := by
  decide

/-- C2: for every version element, every flag of the extracted
`iuse_default` also occurs in `iuse` (`iuse_default ⊆ iuse`). -/
theorem c2_iuse_default_subset (v : Element) (flag : String)
    (h : flag ∈ (parseVersion v).iuse_default) :
    flag ∈ (parseVersion v).iuse := by
  have key : List.Sublist ((v.childrenNamed "iuse").foldl iuseStep ([], [])).2
      ((v.childrenNamed "iuse").foldl iuseStep ([], [])).1 :=
    foldl_preserves (fun (s : List String × List String) => List.Sublist s.2 s.1) iuseStep
      (fun s e hs => iuseStep_sublist s e hs) _ _ (List.Sublist.refl [])
  exact key.subset h

/-- Witness for C2 at a concrete version element. -/
theorem c2_iuse_default_subset_witness :
    "a" ∈ (parseVersion c2VersionElem).iuse_default ∧
    "a" ∈ (parseVersion c2VersionElem).iuse :=
  ⟨by decide, c2_iuse_default_subset c2VersionElem "a" (by decide)⟩

/-- C3: the Indentation Normalizer (`_clean_code_indentation`) maps
`"    a\n      b\n    c"` to `"a\n  b\nc"`; when the computed minimum
indent is zero it returns the input unchanged; when there is no non-blank
line (the minimum is `None`) it returns the input unchanged. Being a Lean
function, it is total by construction. -/
theorem c3_indentation_normalizer :
    cleanCodeIndentation "    a\n      b\n    c" = "a\n  b\nc" ∧
    (∀ code, minIndentOpt (pySplitlines code) = some 0 →
      cleanCodeIndentation code = code) ∧
    (∀ code, minIndentOpt (pySplitlines code) = none →
      cleanCodeIndentation code = code) := by
  refine ⟨by decide, ?_, ?_⟩ <;> intro code h <;> simp [cleanCodeIndentation, h]

/-- Witness for C3: a zero-minimum input and an all-blank input, each
returned unchanged. -/
theorem c3_indentation_normalizer_witness :
    (minIndentOpt (pySplitlines "a\nb") = some 0 ∧
      cleanCodeIndentation "a\nb" = "a\nb") ∧
    (minIndentOpt (pySplitlines " \n  ") = none ∧
      cleanCodeIndentation " \n  " = " \n  ") :=
  ⟨⟨by decide, c3_indentation_normalizer.2.1 "a\nb" (by decide)⟩,
   ⟨by decide, c3_indentation_normalizer.2.2 " \n  " (by decide)⟩⟩

/-- C8 counterexample: on a malformed advisory (no root element) the
parser returns the same bare `None` for two distinct advisory ids, so no
reading of the failure value can recover the supplied advisory id — the
failure does not carry it, contrary to the claim. -/
theorem c8_failure_lacks_id_counterexample :
    ¬ ∃ f : Option GLSA → String,
      f (parseGlsaXml "GLSA-200101-01" none) = "GLSA-200101-01" ∧
      f (parseGlsaXml "GLSA-200102-02" none) = "GLSA-200102-02" := by
  rintro ⟨f, h1, h2⟩
  have heq : parseGlsaXml "GLSA-200101-01" none =
      parseGlsaXml "GLSA-200102-02" none := rfl
  rw [heq, h2] at h1
  exact absurd h1 (by decide)

/-- C8 (amended): for a malformed advisory input (no root element) and
every supplied advisory id, parsing does not raise (the embedding is a
total function) and returns the explicit failure value `None`; that value
does not carry the advisory id. -/
theorem c8_malformed_returns_none (glsaId : String) :
    parseGlsaXml glsaId none = none := rfl

/-- The head of the filtered `use` children is the first matching child. -/
theorem useChildren_head (v e : Element) (enabledVal : String)
    (pre suf : List Element) (hsplit : v.children = pre ++ e :: suf)
    (htag : e.tag = "use") (hattr : e.attr "enabled" = some enabledVal)
    (hpre : ∀ x ∈ pre, ¬(x.tag = "use" ∧ x.attr "enabled" = some enabledVal)) :
    (useChildren v enabledVal).head? = some e := by
  unfold useChildren
  rw [hsplit, List.filter_append]
  have h1 : pre.filter
      (fun c => decide (c.tag = "use" ∧ c.attr "enabled" = some enabledVal)) = [] := by
    rw [List.filter_eq_nil_iff]
    intro x hx
    simpa using hpre x hx
  rw [h1, List.filter_cons_of_pos (by simp [htag, hattr])]
  rfl

/-- C4: `use_enabled` is computed from only the first child `use` element
with `enabled="1"` (its text whitespace-split), `use_disabled` from only
the first with `enabled="0"`; with no matching child the list is empty.
The concrete instance of the claim (first element `"a b c"` wins over a
second `"d"`) is derived in the witness. -/
theorem c4_use_first_wins (v e : Element) (pre suf : List Element) :
    (v.children = pre ++ e :: suf → e.tag = "use" →
      e.attr "enabled" = some "1" →
      (∀ x ∈ pre, ¬(x.tag = "use" ∧ x.attr "enabled" = some "1")) →
      (parseVersion v).use_enabled =
        (if pyTruthy e.text then pySplit (e.text.getD "") else [])) ∧
    (v.children = pre ++ e :: suf → e.tag = "use" →
      e.attr "enabled" = some "0" →
      (∀ x ∈ pre, ¬(x.tag = "use" ∧ x.attr "enabled" = some "0")) →
      (parseVersion v).use_disabled =
        (if pyTruthy e.text then pySplit (e.text.getD "") else [])) ∧
    ((∀ x ∈ v.children, ¬(x.tag = "use" ∧ x.attr "enabled" = some "1")) →
      (parseVersion v).use_enabled = []) ∧
    ((∀ x ∈ v.children, ¬(x.tag = "use" ∧ x.attr "enabled" = some "0")) →
      (parseVersion v).use_disabled = []) := by
  have hempty : ∀ val, (∀ x ∈ v.children, ¬(x.tag = "use" ∧ x.attr "enabled" = some val)) →
      firstElemFlags (useChildren v val) = [] := by
    intro val hall
    have : useChildren v val = [] := by
      unfold useChildren
      rw [List.filter_eq_nil_iff]
      intro x hx
      simpa using hall x hx
    rw [this]
    rfl
  have hfirst : ∀ val, v.children = pre ++ e :: suf → e.tag = "use" →
      e.attr "enabled" = some val →
      (∀ x ∈ pre, ¬(x.tag = "use" ∧ x.attr "enabled" = some val)) →
      firstElemFlags (useChildren v val) =
        (if pyTruthy e.text then pySplit (e.text.getD "") else []) := by
    intro val hsplit htag hattr hpre
    unfold firstElemFlags
    rw [useChildren_head v e val pre suf hsplit htag hattr hpre]
  exact ⟨fun a b c d => hfirst "1" a b c d, fun a b c d => hfirst "0" a b c d,
    hempty "1", hempty "0"⟩

/-- Witness for C4: the claim's concrete instance. The first
`use enabled="1"` element (text `"a b c"`) wins and the second (text
`"d"`) is ignored; no `enabled="0"` element exists, so `use_disabled` is
empty. -/
theorem c4_use_first_wins_witness :
    (parseVersion c4VersionElem).use_enabled = ["a", "b", "c"] ∧
    (parseVersion c4VersionElem).use_disabled = [] := by
  constructor
  · have h := (c4_use_first_wins c4VersionElem
      (.mk "use" [("enabled", "1")] (some "a b c") [] none) []
      [.mk "use" [("enabled", "1")] (some "d") [] none]).1
      rfl rfl rfl (by intro x hx; cases hx)
    rw [h]
    decide
  · exact (c4_use_first_wins c4VersionElem
      (.mk "" [] none [] none) [] []).2.2.2 (by decide)

/-- C5 counterexample: a version element whose first `use enabled="1"`
and first `use enabled="0"` children both list the flag `a` produces
`use_enabled` and `use_disabled` that are not disjoint. -/
theorem c5_use_disjoint_counterexample :
    "a" ∈ (parseVersion c5VersionElem).use_enabled ∧
    "a" ∈ (parseVersion c5VersionElem).use_disabled := by
  decide

/-- C5 (amended): `use_enabled` and `use_disabled` are disjoint provided
no flag occurs both in the text of a `use enabled="1"` child and in the
text of a `use enabled="0"` child — the spec's "each source flag carries
one state record" assumption, which the code does not enforce on
arbitrary input. -/
theorem c5_use_disjoint_amended (v : Element)
    (h : ∀ e1 ∈ useChildren v "1", ∀ e0 ∈ useChildren v "0",
      ∀ flag ∈ pySplit (e1.text.getD ""), flag ∉ pySplit (e0.text.getD ""))
    (flag : String) (h1 : flag ∈ (parseVersion v).use_enabled) :
    flag ∉ (parseVersion v).use_disabled := by
  intro h0
  have he : flag ∈ firstElemFlags (useChildren v "1") := h1
  have hd : flag ∈ firstElemFlags (useChildren v "0") := h0
  cases hu1 : useChildren v "1" with
  | nil => rw [hu1] at he; cases he
  | cons e1 rest1 =>
    cases hu0 : useChildren v "0" with
    | nil => rw [hu0] at hd; cases hd
    | cons e0 rest0 =>
      rw [hu1] at he
      rw [hu0] at hd
      unfold firstElemFlags at he hd
      simp only [List.head?_cons] at he hd
      have hme1 : e1 ∈ useChildren v "1" := by rw [hu1]; exact List.mem_cons_self _ _
      have hme0 : e0 ∈ useChildren v "0" := by rw [hu0]; exact List.mem_cons_self _ _
      by_cases ht1 : pyTruthy e1.text
      · by_cases ht0 : pyTruthy e0.text
        · rw [if_pos ht1] at he
          rw [if_pos ht0] at hd
          exact h e1 hme1 e0 hme0 flag he hd
        · rw [if_neg ht0] at hd
          cases hd
      · rw [if_neg ht1] at he
        cases he

/-- Witness for the amended C5 at a version element whose `use` children
carry distinct flag sets. -/
theorem c5_use_disjoint_amended_witness :
    "a" ∈ (parseVersion c5OkVersionElem).use_enabled ∧
    "a" ∉ (parseVersion c5OkVersionElem).use_disabled :=
  ⟨by decide, c5_use_disjoint_amended c5OkVersionElem (by decide) "a" (by decide)⟩

/-- C6: package-index extraction returns exactly one `Package` per
`package` child of each `category` element (the length is the sum of the
per-category counts), and the category field carried by each output block
is the enclosing category's `name` attribute (empty string when absent),
in category-then-package document order. -/
theorem c6_package_count_and_category (root : Element) :
    (extractPackages root).length =
      ((documentCategories root).map
        (fun c => (c.childrenNamed "package").length)).sum ∧
    (extractPackages root).map Package.category =
      ((documentCategories root).map
        (fun c => List.replicate (c.childrenNamed "package").length
          (c.attrD "name" ""))).flatten := by
  constructor
  · unfold extractPackages
    rw [List.length_flatten, List.map_map]
    refine congrArg List.sum ?_
    apply List.map_congr_left
    intro c _
    simp [Function.comp]
  · unfold extractPackages
    rw [List.map_flatten, List.map_map]
    refine congrArg List.flatten ?_
    apply List.map_congr_left
    intro c _
    simp only [Function.comp, List.map_map]
    have hconst : (Package.category ∘ fun p => parsePackage p (c.attrD "name" "")) =
        fun _ => c.attrD "name" "" := rfl
    rw [hconst, List.map_const']

/-- C7 counterexample: a `bug` element whose only text node is the
whitespace-only string `" "` yields `bugs = [" "]` — the whitespace-only
entry is not dropped, contrary to the claim. -/
theorem c7_bugs_whitespace_counterexample :
    Option.map GLSA.bugs (parseGlsaXml "GLSA-200101-01" (some c7BugRoot)) =
      some [" "] ∧ pyStrip " " = "" := by
  decide

/-- C7 (amended): `bugs` is the list of text-node children of the root's
`bug` elements in document order with only the empty entries dropped;
whitespace-only entries are kept. Document order is preserved (the result
is a sublist of the full text-node list) and no empty entry remains. -/
theorem c7_bugs_amended (glsaId : String) (root : Element) :
    Option.map GLSA.bugs (parseGlsaXml glsaId (some root)) =
      some ((bugTextNodesAll root).filter (· ≠ "")) ∧
    List.Sublist ((bugTextNodesAll root).filter (· ≠ "")) (bugTextNodesAll root) ∧
    ((bugTextNodesAll root).filter (· ≠ "")).count "" = 0 := by
  refine ⟨rfl, List.filter_sublist _, ?_⟩
  rw [List.count_eq_zero]
  intro hmem
  rw [List.mem_filter] at hmem
  simp at hmem

/-- C9 counterexample: an `access` element with direct text `"remote"`
and no `p` child — the claim says `access` must then be unset, but the
code extracts `"remote"` (it reads the whole string value of the
`access` element, not the first paragraph). -/
theorem c9_access_counterexample :
    Option.map GLSA.access (parseGlsaXml "GLSA-200101-01" (some c9AccessRoot)) =
      some (some "remote") ∧
    (((c9AccessRoot.childrenNamed "access").map
      (fun e => e.childrenNamed "p")).flatten).length = 0 := by
  decide

/-- C9 (amended): `access` is the stripped full string value (all
descendant text) of the first `access` element, and is unset exactly when
that string value is empty — in particular when no `access` element
exists. It is not restricted to the first paragraph. -/
theorem c9_access_amended (glsaId : String) (root : Element) :
    Option.map GLSA.access (parseGlsaXml glsaId (some root)) =
      some (accessStringValue root) := by
  have hs : sVal (xpathString1 root "access") = accessStringValue root := by
    unfold sVal xpathString1 accessStringValue
    cases (root.childrenNamed "access").head? with
    | none => simp
    | some e => by_cases h : e.stringValue = "" <;> simp [h]
  calc Option.map GLSA.access (parseGlsaXml glsaId (some root))
      = some (sVal (xpathString1 root "access")) := rfl
    _ = some (accessStringValue root) := by rw [hs]

/-- Two-step structural induction matching the recursion pattern of the
line-splitting functions. -/
theorem twoStepInduction {P : List Char → Prop} (h0 : P [])
    (h1 : ∀ c, P [c])
    (h2 : ∀ c d rest, P rest → P (d :: rest) → P (c :: d :: rest)) :
    ∀ l, P l
  | [] => h0
  | [c] => h1 c
  | c :: d :: rest =>
    h2 c d rest (twoStepInduction h0 h1 h2 rest)
      (twoStepInduction h0 h1 h2 (d :: rest))

/-- Newline normalization never turns a non-empty string empty. -/
theorem normNewlinesL_ne_nil (c : Char) (l : List Char) :
    normNewlinesL (c :: l) ≠ [] := by
  cases l with
  | nil => by_cases h : c = '\r' <;> simp [normNewlinesL, h]
  | cons d rest =>
    by_cases h : c = '\r' <;> by_cases h2 : d = '\n' <;>
      simp [normNewlinesL, h, h2]

/-- Splitting a non-empty string yields at least one line. -/
theorem pySplitlinesL_ne_nil (c : Char) (l : List Char) :
    pySplitlinesL (c :: l) ≠ [] := by
  cases l with
  | nil => by_cases h : pyIsLineBreak c = true <;> simp [pySplitlinesL, h]
  | cons d rest =>
    by_cases h1 : c = '\r' ∧ d = '\n'
    · simp [pySplitlinesL, h1]
    · by_cases h2 : pyIsLineBreak c = true
      · simp [pySplitlinesL, h1, h2]
      · unfold pySplitlinesL
        rw [if_neg h1, if_neg h2]
        cases pySplitlinesL (d :: rest) <;> simp

/-- Python `splitlines`, on input confined to the `\n` / `\r` / `\r\n`
terminators, agrees with: normalize every terminator to `\n`, drop one
trailing `\n`, then split on `\n`. -/
theorem pySplitlinesL_eq_splitOnLf :
    ∀ l, l ≠ [] → onlyStdBreaks l →
      pySplitlinesL l = splitOnLf (dropTrailingLf (normNewlinesL l)) := by
  intro l
  induction l using twoStepInduction with
  | h0 => intro h _; exact absurd rfl h
  | h1 c =>
    intro _ hstd
    by_cases hb : pyIsLineBreak c = true
    · rcases hstd c (by simp) hb with hc | hc <;> subst hc <;> decide
    · have hcr : c ≠ '\r' := by rintro rfl; exact hb (by decide)
      have hcn : c ≠ '\n' := by rintro rfl; exact hb (by decide)
      simp [pySplitlinesL, normNewlinesL, dropTrailingLf, splitOnLf, hb, hcr, hcn]
  | h2 c d rest ih1 ih2 =>
    intro _ hstd
    have hstd2 : onlyStdBreaks (d :: rest) := by
      intro x hx hbx
      exact hstd x (List.mem_cons_of_mem _ hx) hbx
    have hsplit2 := ih2 (by simp) hstd2
    by_cases hc : c = '\r'
    · subst hc
      by_cases hd : d = '\n'
      · subst hd
        have hL : pySplitlinesL ('\r' :: '\n' :: rest) = [] :: pySplitlinesL rest := by
          simp [pySplitlinesL]
        have hN : normNewlinesL ('\r' :: '\n' :: rest) = '\n' :: normNewlinesL rest := by
          simp [normNewlinesL]
        cases hrest : rest with
        | nil => subst hrest; decide
        | cons x xs =>
          subst hrest
          have hstd1 : onlyStdBreaks (x :: xs) := by
            intro y hy hby
            exact hstd2 y (List.mem_cons_of_mem _ hy) hby
          have hsplit1 := ih1 (by simp) hstd1
          cases hnn : normNewlinesL (x :: xs) with
          | nil => exact absurd hnn (normNewlinesL_ne_nil x xs)
          | cons y ys =>
            rw [hL, hN, hnn]
            rw [show dropTrailingLf ('\n' :: y :: ys) =
              '\n' :: dropTrailingLf (y :: ys) from rfl]
            rw [show splitOnLf ('\n' :: dropTrailingLf (y :: ys)) =
              [] :: splitOnLf (dropTrailingLf (y :: ys)) by simp [splitOnLf]]
            rw [hsplit1, hnn]
      · have hL : pySplitlinesL ('\r' :: d :: rest) =
            [] :: pySplitlinesL (d :: rest) := by
          have hcond : ¬('\r' = '\r' ∧ d = '\n') := by simp [hd]
          simp [pySplitlinesL, hcond, hd, pyIsLineBreak]
        have hN : normNewlinesL ('\r' :: d :: rest) =
            '\n' :: normNewlinesL (d :: rest) := by
          simp [normNewlinesL, hd]
        cases hnn : normNewlinesL (d :: rest) with
        | nil => exact absurd hnn (normNewlinesL_ne_nil d rest)
        | cons y ys =>
          rw [hL, hN, hnn]
          rw [show dropTrailingLf ('\n' :: y :: ys) =
            '\n' :: dropTrailingLf (y :: ys) from rfl]
          rw [show splitOnLf ('\n' :: dropTrailingLf (y :: ys)) =
            [] :: splitOnLf (dropTrailingLf (y :: ys)) by simp [splitOnLf]]
          rw [hsplit2, hnn]
    · by_cases hb : pyIsLineBreak c = true
      · have hcn : c = '\n' := by
          rcases hstd c (by simp) hb with h | h
          · exact h
          · exact absurd h hc
        subst hcn
        have hL : pySplitlinesL ('\n' :: d :: rest) =
            [] :: pySplitlinesL (d :: rest) := by
          have hcond : ¬('\n' = '\r' ∧ d = '\n') := by simp
          simp [pySplitlinesL, hcond, hb]
        have hN : normNewlinesL ('\n' :: d :: rest) =
            '\n' :: normNewlinesL (d :: rest) := by
          simp [normNewlinesL]
        cases hnn : normNewlinesL (d :: rest) with
        | nil => exact absurd hnn (normNewlinesL_ne_nil d rest)
        | cons y ys =>
          rw [hL, hN, hnn]
          rw [show dropTrailingLf ('\n' :: y :: ys) =
            '\n' :: dropTrailingLf (y :: ys) from rfl]
          rw [show splitOnLf ('\n' :: dropTrailingLf (y :: ys)) =
            [] :: splitOnLf (dropTrailingLf (y :: ys)) by simp [splitOnLf]]
          rw [hsplit2, hnn]
      · have hcn : c ≠ '\n' := by rintro rfl; exact hb (by decide)
        have hcond : ¬(c = '\r' ∧ d = '\n') := by simp [hc]
        have hN : normNewlinesL (c :: d :: rest) =
            c :: normNewlinesL (d :: rest) := by
          simp [normNewlinesL, hc]
        cases hnn : normNewlinesL (d :: rest) with
        | nil => exact absurd hnn (normNewlinesL_ne_nil d rest)
        | cons y ys =>
          cases hP : pySplitlinesL (d :: rest) with
          | nil => exact absurd hP (pySplitlinesL_ne_nil d rest)
          | cons l0 ls =>
            have hrec : splitOnLf (dropTrailingLf (y :: ys)) = l0 :: ls := by
              have h' := hsplit2
              rw [hnn] at h'
              rw [hP] at h'
              exact h'.symm
            have hL : pySplitlinesL (c :: d :: rest) = (c :: l0) :: ls := by
              unfold pySplitlinesL
              rw [if_neg hcond, if_neg hb, hP]
            have hR : splitOnLf (dropTrailingLf (normNewlinesL (c :: d :: rest))) =
                (c :: l0) :: ls := by
              rw [hN, hnn]
              rw [show dropTrailingLf (c :: y :: ys) =
                c :: dropTrailingLf (y :: ys) from rfl]
              unfold splitOnLf
              rw [if_neg hcn, hrec]
            rw [hL, hR]

/-- C10: whenever the Indentation Normalizer's computed minimum indent is
positive — so the input is actually modified — the output is the per-line
dedent of the input with every `"\r\n"` and every `"\r"` terminator
replaced by `"\n"`, one trailing terminator dropped, and lines re-joined
with `"\n"` (stated for inputs confined to the `\n`/`\r`/`\r\n`
terminators Python and the model share); when the minimum is zero or
there is no non-blank line, the input is returned unchanged and no such
rewriting occurs. -/
theorem c10_terminator_normalization (code : String) :
    (∀ m, minIndentOpt (pySplitlines code) = some m → 0 < m →
      onlyStdBreaks code.toList →
      cleanCodeIndentation code =
        String.intercalate "\n"
          ((splitOnLf (dropTrailingLf (normNewlinesL code.toList))).map
            (fun l => dedentLine m ⟨l⟩))) ∧
    ((minIndentOpt (pySplitlines code) = none ∨
        minIndentOpt (pySplitlines code) = some 0) →
      cleanCodeIndentation code = code) := by
  constructor
  · intro m hm hpos hstd
    have hne : code.toList ≠ [] := by
      intro h0
      have hnone : minIndentOpt (pySplitlines code) = none := by
        unfold pySplitlines
        rw [h0]
        rfl
      rw [hnone] at hm
      cases hm
    have hsp := pySplitlinesL_eq_splitOnLf code.toList hne hstd
    have hm0 : m ≠ 0 := Nat.pos_iff_ne_zero.mp hpos
    have hclean : cleanCodeIndentation code =
        String.intercalate "\n" ((pySplitlines code).map (dedentLine m)) := by
      simp only [cleanCodeIndentation, hm]
      simp [hm0]
    rw [hclean]
    unfold pySplitlines
    rw [hsp, List.map_map]
    rfl
  · intro h
    rcases h with h | h <;> simp [cleanCodeIndentation, h]

/-- Witness for C10: a positive-minimum input with `"\r\n"` and `"\r"`
terminators, rewritten and dedented; and a zero-minimum input returned
unchanged. -/
theorem c10_terminator_normalization_witness :
    (minIndentOpt (pySplitlines "  a\r\n   b\r") = some 2 ∧
      cleanCodeIndentation "  a\r\n   b\r" =
        String.intercalate "\n"
          ((splitOnLf (dropTrailingLf (normNewlinesL ("  a\r\n   b\r").toList))).map
            (fun l => dedentLine 2 ⟨l⟩)) ∧
      cleanCodeIndentation "  a\r\n   b\r" = "a\n b") ∧
    (minIndentOpt (pySplitlines "a\nb") = some 0 ∧
      cleanCodeIndentation "a\nb" = "a\nb") :=
  ⟨⟨by decide,
    (c10_terminator_normalization "  a\r\n   b\r").1 2 (by decide) (by decide)
      (by decide),
    by decide⟩,
   ⟨by decide, (c10_terminator_normalization "a\nb").2 (Or.inr (by decide))⟩⟩

/-- Witness for C6 at a concrete two-category document: three packages,
categories carried down in document order. -/
theorem c6_package_count_and_category_witness :
    (extractPackages c6DocRoot).length = 3 ∧
    (extractPackages c6DocRoot).map Package.category =
      ["app-misc", "app-misc", ""] := by
  have h := c6_package_count_and_category c6DocRoot
  exact ⟨by rw [h.1]; decide, by rw [h.2]; decide⟩

/-- Witness for the amended C7 at a concrete advisory root. -/
theorem c7_bugs_amended_witness :
    Option.map GLSA.bugs (parseGlsaXml "GLSA-200101-01" (some c7BugRoot)) =
      some ((bugTextNodesAll c7BugRoot).filter (· ≠ "")) :=
  (c7_bugs_amended "GLSA-200101-01" c7BugRoot).1

/-- Witness for the amended C8 at a concrete advisory id. -/
theorem c8_malformed_returns_none_witness :
    parseGlsaXml "GLSA-200101-01" none = none :=
  c8_malformed_returns_none "GLSA-200101-01"

/-- Witness for the amended C9 at a concrete advisory root. -/
theorem c9_access_amended_witness :
    Option.map GLSA.access (parseGlsaXml "GLSA-200101-01" (some c9AccessRoot)) =
      some (accessStringValue c9AccessRoot) :=
  c9_access_amended "GLSA-200101-01" c9AccessRoot

end Carnage
